import Mathlib

/-
Verification of the SwiftConvert backend (src/server.js) against its
natural-language specification.  The Express request handlers, the two
conversion-engine adapters and the format registry are shallowly embedded as
pure Lean functions; external processes are parametrised by an outcome value
(exit code, captured stderr, whether the process wrote its output file), and
the file system is tracked as explicit lists of file names plus an event
trace.
-/

/-! ### String helpers mirroring Node's `path` module (posix) -/

/-- Suffix of `l` strictly after the last occurrence of `c`; `l` itself when
`c` does not occur. -/
def afterLast (c : Char) : List Char → List Char
  | [] => []
  | a :: rest =>
    if c ∈ rest then afterLast c rest
    else if a = c then rest
    else a :: rest

/-- Prefix of `l` strictly before the last occurrence of `c`; `l` itself when
`c` does not occur. -/
def beforeLast (c : Char) : List Char → List Char
  | [] => []
  | a :: rest =>
    if c ∈ rest then a :: beforeLast c rest
    else if a = c then []
    else a :: rest

/-- Remove all trailing occurrences of `c`. -/
def dropTrailing (c : Char) (l : List Char) : List Char :=
  (l.reverse.dropWhile (fun a => a = c)).reverse

/-- Node `path.basename(p)` (posix, no extension argument): trailing slashes
are ignored, then everything after the last slash is returned. -/
def basenameL (l : List Char) : List Char :=
  afterLast '/' (dropTrailing '/' l)

/-- Node `path.extname(p)`: the part of the basename from its last dot on,
empty when the basename has no dot, starts with its only dot, or is a dot
directory. -/
def extnameL (l : List Char) : List Char :=
  if basenameL l = ['.', '.'] then []
  else if '.' ∈ basenameL l ∧ beforeLast '.' (basenameL l) ≠ [] then
    '.' :: afterLast '.' (basenameL l)
  else []

def extnameStr (s : String) : String := ⟨extnameL s.data⟩

/-- Node `path.basename(p, path.extname(p))`: the basename of `p` with its
extension stripped. -/
def basenameNoExtL (l : List Char) : List Char :=
  (basenameL l).take ((basenameL l).length - (extnameL l).length)

def basenameNoExt (s : String) : String := ⟨basenameNoExtL s.data⟩

/-- JavaScript `String.prototype.toLowerCase` restricted to the ASCII letters
used by this server's format keys. -/
def jsToLower (s : String) : String := ⟨s.data.map Char.toLower⟩

/-- JavaScript `String.prototype.toUpperCase` restricted to ASCII letters. -/
def jsToUpper (s : String) : String := ⟨s.data.map Char.toUpper⟩

/-! ### Format capability registry (server.js:142-161) -/

structure FormatCap where
  pandoc : Option String
  libreoffice : Bool
deriving DecidableEq, Repr

/-- `formatSupport` (server.js:142-161): for each format key, the Pandoc
format name (`none` models the JS literal `false`) and the LibreOffice flag. -/
def formatSupport : List (String × FormatCap) :=
  [("pdf", ⟨some "pdf", true⟩),
   ("docx", ⟨some "docx", true⟩),
   ("doc", ⟨some "doc", true⟩),
   ("odt", ⟨some "odt", true⟩),
   ("rtf", ⟨some "rtf", true⟩),
   ("txt", ⟨some "plain", true⟩),
   ("md", ⟨some "markdown", false⟩),
   ("html", ⟨some "html", true⟩),
   ("xlsx", ⟨none, true⟩),
   ("xls", ⟨none, true⟩),
   ("ods", ⟨none, true⟩),
   ("csv", ⟨none, true⟩),
   ("pptx", ⟨none, true⟩),
   ("ppt", ⟨none, true⟩),
   ("odp", ⟨none, true⟩)]

/-- JavaScript property access `formatSupport[k]`. -/
def lookupFmt (k : String) : Option FormatCap := List.lookup k formatSupport

def fmtKeys : List String := formatSupport.map Prod.fst

/-- `canUsePandoc` (server.js:184): both lookups exist and have a truthy
`pandoc` field. -/
def canUsePandoc (inputExt toFormat : String) : Bool :=
  ((lookupFmt inputExt).bind (fun c => c.pandoc)).isSome &&
  ((lookupFmt toFormat).bind (fun c => c.pandoc)).isSome

/-- `canUseLibreOffice` (server.js:185). -/
def canUseLibreOffice (inputExt toFormat : String) : Bool :=
  (((lookupFmt inputExt).map (fun c => c.libreoffice)).getD false) &&
  (((lookupFmt toFormat).map (fun c => c.libreoffice)).getD false)

/-! ### Engine adapters (server.js:58-139) -/

/-- Outcome of spawning an external converter process: either the `error`
event fired (e.g. the binary is missing), or the process exited with a code,
an accumulated stderr stream, and a flag recording whether it wrote its
output file into the output directory. -/
inductive ProcOutcome where
  | spawnFail (msg : String)
  | exited (code : Nat) (stderr : String) (wrote : Bool)
deriving DecidableEq, Repr

/-- Behaviour of the two external engines for one request. -/
structure EngineEnv where
  pandocRun : ProcOutcome
  libreRun : ProcOutcome
deriving DecidableEq, Repr

/-- `convertWithPandoc` (server.js:58-85): pandoc is spawned with `-o
outputPath`; exit code 0 resolves with `outputPath` (without checking its
existence), a non-zero exit rejects with the accumulated stderr appended to
the message, and a spawn error rejects with the error itself.  The returned
list is the output directory's contents after the attempt. -/
def runPandoc (outcome : ProcOutcome) (outputFileName : String)
    (files : List String) : Except String String × List String :=
  match outcome with
  | .spawnFail m => (Except.error m, files)
  | .exited code stderr wrote =>
    let files2 := if wrote then files ++ [outputFileName] else files
    if code = 0 then (Except.ok outputFileName, files2)
    else (Except.error ("Pandoc conversion failed: " ++ stderr), files2)

/-- server.js:122-123: LibreOffice names its artifact from the input file's
basename, `path.join(outputDir, baseName + '.' + toFormat)`. -/
def libreOutputName (inputName toFormat : String) : String :=
  basenameNoExt inputName ++ "." ++ toFormat

/-- `convertWithLibreOffice` (server.js:88-139): on exit code 0 the adapter
checks `fs.existsSync` on the expected artifact name and resolves with it, or
rejects with "Converted file not found"; a non-zero exit rejects with the
stderr appended; a spawn error rejects with the error itself. -/
def runLibreOffice (outcome : ProcOutcome) (inputName toFormat : String)
    (files : List String) : Except String String × List String :=
  match outcome with
  | .spawnFail m => (Except.error m, files)
  | .exited code stderr wrote =>
    let outFile := libreOutputName inputName toFormat
    let files2 := if wrote then files ++ [outFile] else files
    if code = 0 then
      if outFile ∈ files2 then (Except.ok outFile, files2)
      else (Except.error "Converted file not found", files2)
    else (Except.error ("LibreOffice conversion failed: " ++ stderr), files2)

/-! ### The POST /api/convert handler (server.js:164-230) -/

structure UploadedFile where
  originalname : String
  uuid : String
deriving DecidableEq, Repr

/-- Multer's stored file name (server.js:41-44): `uuid + '-' + originalname`. -/
def storedName (f : UploadedFile) : String := f.uuid ++ "-" ++ f.originalname

structure ConvertReq where
  file : Option UploadedFile
  toFormat : Option String
deriving DecidableEq, Repr

inductive JsonVal where
  | jbool (b : Bool)
  | jstr (s : String)
deriving DecidableEq, Repr

inductive RespBody where
  | errMsg (msg : String)
  | okFile (fileName downloadUrl : String)
deriving DecidableEq, Repr

/-- The JSON object literally passed to `res.json` at each response site of
the convert handler (server.js:167, 174, 212-216, 226-228). -/
def respToJson : RespBody → List (String × JsonVal)
  | .errMsg m => [("error", JsonVal.jstr m)]
  | .okFile fn du =>
    [("success", JsonVal.jbool true),
     ("fileName", JsonVal.jstr fn),
     ("downloadUrl", JsonVal.jstr du)]

structure HttpResp where
  status : Nat
  body : RespBody
deriving DecidableEq, Repr

/-- Observable events of one handler run, in program order. -/
inductive Ev where
  | spawnPandoc
  | spawnLibre
  | unlinkInput
  | send
deriving DecidableEq, Repr

def isSpawn : Ev → Bool
  | .spawnPandoc => true
  | .spawnLibre => true
  | _ => false

structure ConvOutcome where
  resp : HttpResp
  outputFiles : List String
  events : List Ev
deriving DecidableEq, Repr

/-- server.js:53-55 `getFileExtension`. -/
def getFileExtension (filename : String) : String :=
  jsToLower (extnameStr filename)

/-- server.js:178: `getFileExtension(req.file.originalname).slice(1).toLowerCase()`. -/
def inputExtOfName (origname : String) : String :=
  jsToLower ⟨(getFileExtension origname).data.drop 1⟩

/-- server.js:179: `basename(inputPath, extname(inputPath)) + '.' + toFormat`. -/
def outputFileNameOf (inputName toFormat : String) : String :=
  basenameNoExt inputName ++ "." ++ toFormat

/-- The engine-selection block (server.js:183-207): Pandoc first when both
sides support it, LibreOffice as fallback on a Pandoc rejection, LibreOffice
alone otherwise, and a thrown "not supported" error when neither applies.
Returns the converted-file result, the output directory's contents, and the
spawn events in order. -/
def convertAttempt (env : EngineEnv) (inputExt t inputName outName : String) :
    Except String String × List String × List Ev :=
  if canUsePandoc inputExt t then
    match runPandoc env.pandocRun outName [] with
    | (Except.ok cf, fs) => (Except.ok cf, fs, [Ev.spawnPandoc])
    | (Except.error e, fs) =>
      if canUseLibreOffice inputExt t then
        match runLibreOffice env.libreRun inputName t fs with
        | (r, fs2) => (r, fs2, [Ev.spawnPandoc, Ev.spawnLibre])
      else (Except.error e, fs, [Ev.spawnPandoc])
  else if canUseLibreOffice inputExt t then
    match runLibreOffice env.libreRun inputName t [] with
    | (r, fs2) => (r, fs2, [Ev.spawnLibre])
  else
    (Except.error ("Conversion from " ++ inputExt ++ " to " ++ t ++
      " is not supported"), [], [])

/-- The `POST /api/convert` handler (server.js:164-230).  Missing file: 400
without touching the disk.  Falsy `toFormat`: the upload is unlinked, then
400.  Otherwise the engine-selection block runs; on success the input is
unlinked (server.js:210) and a 200 JSON body is sent; on any thrown error the
catch block re-checks `fs.existsSync(req.file.path)` — true on every throwing
path, since the only in-try unlink (line 210) is followed by code that does
not throw — unlinks the upload, and sends a 500 with `error.message`. -/
def convertHandler (req : ConvertReq) (env : EngineEnv) : ConvOutcome :=
  match req.file with
  | none => ⟨⟨400, RespBody.errMsg "No file uploaded"⟩, [], [Ev.send]⟩
  | some f =>
    if req.toFormat.getD "" = "" then
      ⟨⟨400, RespBody.errMsg "Target format not specified"⟩, [],
        [Ev.unlinkInput, Ev.send]⟩
    else
      match convertAttempt env (inputExtOfName f.originalname) (req.toFormat.getD "")
          (storedName f) (outputFileNameOf (storedName f) (req.toFormat.getD "")) with
      | (Except.ok _, fs, tr) =>
        ⟨⟨200, RespBody.okFile (outputFileNameOf (storedName f) (req.toFormat.getD ""))
            ("/api/download/" ++ outputFileNameOf (storedName f) (req.toFormat.getD ""))⟩,
          fs, tr ++ [Ev.unlinkInput, Ev.send]⟩
      | (Except.error e, fs, tr) =>
        ⟨⟨500, RespBody.errMsg e⟩, fs, tr ++ [Ev.unlinkInput, Ev.send]⟩

/-! ### The GET /api/download/:filename handler (server.js:233-265) -/

/-- Render a list of path segments as an absolute posix path string. -/
def renderPathL : List String → List Char
  | [] => []
  | s :: rest => '/' :: s.data ++ renderPathL rest

/-- `path.join(outputDir, name)` followed by `path.resolve`, for a single
name component containing no slash (which `path.basename` guarantees):
normalisation turns an empty or `.` component into the directory itself and
a `..` component into its parent. -/
def joinResolve (dir : List String) (name : String) : List String :=
  if name = "" ∨ name = "." then dir
  else if name = ".." then dir.dropLast
  else dir ++ [name]

inductive DlOutcome where
  | denied
  | notFound
  | served (p : List String) (deletionScheduled : Bool)
deriving DecidableEq, Repr

/-- The `GET /api/download/:filename` handler (server.js:233-265).
`filename := path.basename(param)` (line 235), `filePath :=
path.join(outputDir, filename)` (line 236); the resolved path must satisfy a
string `startsWith` check against the resolved output directory (lines
239-244) or the request is denied with 403; a missing file yields 404;
otherwise `res.download` streams the file and, when the download callback
reports no error, schedules deletion of the file 5 seconds later
(lines 250-259).  `files` is the set of file names inside the output
directory and `downloadOk` tells whether the stream completed without
error. -/
def downloadHandler (outputDir : List String) (param : String)
    (files : List String) (downloadOk : Bool) : DlOutcome :=
  if (renderPathL outputDir).isPrefixOf
      (renderPathL (joinResolve outputDir ⟨basenameL param.data⟩)) then
    if joinResolve outputDir ⟨basenameL param.data⟩ = outputDir ∨
        (⟨basenameL param.data⟩ : String) ∈ files then
      DlOutcome.served (joinResolve outputDir ⟨basenameL param.data⟩) downloadOk
    else DlOutcome.notFound
  else DlOutcome.denied

/-! ### Output-file retention (server.js:250-259) -/

/-- Times (in milliseconds) at which server.js deletes a given output
artifact, as a function of whether and when it was downloaded and whether the
download errored.  The only statement in server.js that unlinks a file of the
output directory is the `setTimeout(..., 5000)` inside the download callback
(lines 253-257), run only when the download completed without error; no
sweeper, interval timer, or other deletion of output files exists anywhere in
the file. -/
def outputDeletionTimes (downloadedAt : Option Nat) (downloadErrored : Bool) :
    List Nat :=
  match downloadedAt with
  | none => []
  | some td => if downloadErrored then [] else [td + 5000]

/-! ### OCR aggregation (modelled from the spec) -/

structure OcrPage where
  words : Nat
  conf : ℚ
deriving DecidableEq, Repr

/-- Modelled from the spec: the OCR backend (the Flask `app.py` referenced by
the repository's Dockerfile) is absent from the sources; spec section 4.4
states "the job's overall `confidence` is the length-weighted (by word
count) mean of per-page confidences, and `wordCount` is the sum". -/
def ocrWordCount (pages : List OcrPage) : Nat :=
  (pages.map (fun p => p.words)).sum

/-- Modelled from the spec: word-count-weighted mean of the per-page
confidences; a job with no recognised words reports confidence 0. -/
def ocrConfidence (pages : List OcrPage) : ℚ :=
  if ocrWordCount pages = 0 then 0
  else (pages.map (fun p => p.conf * (p.words : ℚ))).sum / (ocrWordCount pages : ℚ)

/-- Modelled from the spec: every page, including zero-word ones, appears in
the reported `per_page` list. -/
def ocrPerPage (pages : List OcrPage) : List OcrPage := pages

/-- The Pandoc attempt failed: the spawn errored or the process exited with a
non-zero code. -/
def pandocFailed (env : EngineEnv) : Prop :=
  (∃ m, env.pandocRun = ProcOutcome.spawnFail m) ∨
  (∃ c st w, env.pandocRun = ProcOutcome.exited c st w ∧ c ≠ 0)

/-- The `error` field of a response body. -/
def msgOf : RespBody → String
  | .errMsg m => m
  | .okFile _ _ => ""

/-! ### Supporting lemmas about the path helpers -/

lemma afterLast_of_not_mem (c : Char) (l : List Char) (h : c ∉ l) :
    afterLast c l = l := by
  cases l with
  | nil => rfl
  | cons a rest =>
    have h1 : c ∉ rest := fun hm => h (List.mem_cons_of_mem a hm)
    have h2 : a ≠ c := fun ha => h (by rw [ha]; exact List.mem_cons_self c rest)
    simp only [afterLast]
    rw [if_neg h1, if_neg h2]

lemma afterLast_append_cons (c : Char) (b t : List Char) (ht : c ∉ t) :
    afterLast c (b ++ c :: t) = t := by
  induction b with
  | nil =>
    show (if c ∈ t then afterLast c t else if c = c then t else c :: t) = t
    rw [if_neg ht, if_pos rfl]
  | cons x b ih =>
    have hm : c ∈ b ++ c :: t := List.mem_append_right b (List.mem_cons_self c t)
    show (if c ∈ b ++ c :: t then afterLast c (b ++ c :: t)
      else if x = c then b ++ c :: t else x :: (b ++ c :: t)) = t
    rw [if_pos hm]
    exact ih

lemma beforeLast_append_cons (c : Char) (b t : List Char) (ht : c ∉ t) :
    beforeLast c (b ++ c :: t) = b := by
  induction b with
  | nil =>
    show (if c ∈ t then c :: beforeLast c t else if c = c then [] else c :: t) = []
    rw [if_neg ht, if_pos rfl]
  | cons x b ih =>
    have hm : c ∈ b ++ c :: t := List.mem_append_right b (List.mem_cons_self c t)
    show (if c ∈ b ++ c :: t then x :: beforeLast c (b ++ c :: t)
      else if x = c then [] else x :: (b ++ c :: t)) = x :: b
    rw [if_pos hm, ih]

lemma beforeLast_append_afterLast (c : Char) (l : List Char) (h : c ∈ l) :
    beforeLast c l ++ c :: afterLast c l = l := by
  induction l with
  | nil => cases h
  | cons a rest ih =>
    by_cases hr : c ∈ rest
    · simp only [beforeLast, afterLast]
      rw [if_pos hr, if_pos hr, List.cons_append, ih hr]
    · have ha : a = c := by
        rcases List.mem_cons.mp h with h1 | h2
        · exact h1.symm
        · exact absurd h2 hr
      simp only [beforeLast, afterLast]
      rw [if_neg hr, if_neg hr, if_pos ha, if_pos ha, List.nil_append, ha]

lemma dropTrailing_of_not_mem (c : Char) (l : List Char) (h : c ∉ l) :
    dropTrailing c l = l := by
  unfold dropTrailing
  cases hrev : l.reverse with
  | nil =>
    have hl : l = [] := List.reverse_eq_nil_iff.mp hrev
    subst hl
    simp
  | cons a rest =>
    have ha : a ∈ l := by rw [← List.mem_reverse, hrev]; exact List.mem_cons_self a rest
    have hac : ¬ a = c := fun hx => h (hx ▸ ha)
    rw [List.dropWhile_cons_of_neg (by simpa using hac), ← hrev, List.reverse_reverse]

lemma basenameL_of_not_mem (l : List Char) (h : '/' ∉ l) : basenameL l = l := by
  unfold basenameL
  rw [dropTrailing_of_not_mem _ _ h, afterLast_of_not_mem _ _ h]

lemma extnameL_concat (b t : List Char) (hb : b ≠ []) (ht : '.' ∉ t) (ht2 : t ≠ [])
    (hs : '/' ∉ b ++ '.' :: t) : extnameL (b ++ '.' :: t) = '.' :: t := by
  have hX : ¬ (b ++ '.' :: t = ['.', '.']) := by
    intro heq
    have hlen := congrArg List.length heq
    simp [List.length_append] at hlen
    have hb1 : 0 < b.length := List.length_pos.mpr hb
    have ht1 : 0 < t.length := List.length_pos.mpr ht2
    omega
  have hY : '.' ∈ b ++ '.' :: t ∧ beforeLast '.' (b ++ '.' :: t) ≠ [] := by
    refine ⟨List.mem_append_right b (List.mem_cons_self _ _), ?_⟩
    rw [beforeLast_append_cons _ _ _ ht]
    exact hb
  unfold extnameL
  rw [basenameL_of_not_mem _ hs, if_neg hX, if_pos hY, afterLast_append_cons _ _ _ ht]

lemma basenameNoExtL_concat (b t : List Char) (hb : b ≠ []) (ht : '.' ∉ t) (ht2 : t ≠ [])
    (hs : '/' ∉ b ++ '.' :: t) : basenameNoExtL (b ++ '.' :: t) = b := by
  unfold basenameNoExtL
  rw [basenameL_of_not_mem _ hs, extnameL_concat b t hb ht ht2 hs]
  have harith : (b ++ '.' :: t).length - ('.' :: t).length = b.length := by
    simp [List.length_append]
  rw [harith, List.take_left]

lemma basenameNoExtL_ne_nil (l : List Char) (h : '/' ∉ l) (h2 : l ≠ []) :
    basenameNoExtL l ≠ [] := by
  unfold basenameNoExtL extnameL
  rw [basenameL_of_not_mem _ h]
  by_cases hdd : l = ['.', '.']
  · rw [if_pos hdd]
    subst hdd
    decide
  · rw [if_neg hdd]
    by_cases hY : '.' ∈ l ∧ beforeLast '.' l ≠ []
    · rw [if_pos hY]
      intro hc
      rcases List.take_eq_nil_iff.mp hc with hk | hl
      · have hdec := beforeLast_append_afterLast '.' l hY.1
        have hlen : l.length = (beforeLast '.' l).length + ((afterLast '.' l).length + 1) := by
          conv_lhs => rw [← hdec]
          simp [List.length_append]
        have hblen : (beforeLast '.' l).length = 0 := by
          simp only [List.length_cons] at hk
          omega
        exact hY.2 (List.length_eq_zero.mp hblen)
      · exact h2 hl
    · rw [if_neg hY]
      simpa [List.take_length] using h2

lemma basenameNoExtL_no_slash (l : List Char) (h : '/' ∉ l) :
    '/' ∉ basenameNoExtL l := by
  unfold basenameNoExtL
  rw [basenameL_of_not_mem _ h]
  exact fun hm => h (List.take_subset _ _ hm)

lemma storedName_data (f : UploadedFile) :
    (storedName f).data = f.uuid.data ++ '-' :: f.originalname.data := by
  unfold storedName
  rw [String.data_append, String.data_append, List.append_assoc]
  rfl

lemma storedName_ne_nil (f : UploadedFile) : (storedName f).data ≠ [] := by
  rw [storedName_data]
  simp

/-! ### Lemmas about the format registry -/

lemma mem_keys_of_lookup {β : Type} (k : String) (l : List (String × β)) (v : β)
    (h : List.lookup k l = some v) : k ∈ l.map Prod.fst := by
  induction l with
  | nil => simp [List.lookup] at h
  | cons a as ih =>
    cases a with
    | mk k2 v2 =>
      rw [List.lookup] at h
      cases hbeq : (k == k2) with
      | true =>
        have : k = k2 := eq_of_beq hbeq
        simp [this]
      | false =>
        rw [hbeq] at h
        simpa using Or.inr (ih h)

lemma fmtKeys_shape : ∀ t ∈ fmtKeys, '.' ∉ t.data ∧ '/' ∉ t.data ∧ t.data ≠ [] := by
  decide

lemma lookupFmt_shape (t : String) (c : FormatCap) (h : lookupFmt t = some c) :
    '.' ∉ t.data ∧ '/' ∉ t.data ∧ t.data ≠ [] :=
  fmtKeys_shape t (mem_keys_of_lookup t formatSupport c h)

lemma lookupFmt_isSome_of_canUsePandoc (i t : String) (h : canUsePandoc i t = true) :
    ∃ c, lookupFmt t = some c := by
  unfold canUsePandoc at h
  rcases Bool.and_eq_true_iff.mp h with ⟨_, h2⟩
  cases hl : lookupFmt t with
  | none => rw [hl] at h2; simp at h2
  | some c => exact ⟨c, rfl⟩

lemma lookupFmt_isSome_of_canUseLibreOffice (i t : String)
    (h : canUseLibreOffice i t = true) : ∃ c, lookupFmt t = some c := by
  unfold canUseLibreOffice at h
  rcases Bool.and_eq_true_iff.mp h with ⟨_, h2⟩
  cases hl : lookupFmt t with
  | none => rw [hl] at h2; simp at h2
  | some c => exact ⟨c, rfl⟩

/-! ### Lemmas about the engine-selection block -/

lemma runPandoc_spawnFail (m : String) (o : String) (fs : List String) :
    runPandoc (ProcOutcome.spawnFail m) o fs = (Except.error m, fs) := rfl

lemma runPandoc_exited_ok (st : String) (w : Bool) (o : String) (fs : List String) :
    runPandoc (ProcOutcome.exited 0 st w) o fs =
      (Except.ok o, if w then fs ++ [o] else fs) := by
  unfold runPandoc
  simp

lemma runPandoc_exited_fail (c : Nat) (st : String) (w : Bool) (o : String)
    (fs : List String) (hc : c ≠ 0) :
    runPandoc (ProcOutcome.exited c st w) o fs =
      (Except.error ("Pandoc conversion failed: " ++ st), if w then fs ++ [o] else fs) := by
  unfold runPandoc
  simp [hc]

lemma runLibreOffice_exited_ok_wrote (st : String) (n t : String) (fs : List String) :
    runLibreOffice (ProcOutcome.exited 0 st true) n t fs =
      (Except.ok (libreOutputName n t), fs ++ [libreOutputName n t]) := by
  unfold runLibreOffice
  simp

lemma convertAttempt_pandoc_ok (env : EngineEnv) (i t n o : String)
    (hp : canUsePandoc i t = true) (st : String) (w : Bool)
    (hpr : env.pandocRun = ProcOutcome.exited 0 st w) :
    convertAttempt env i t n o =
      (Except.ok o, (if w then [o] else []), [Ev.spawnPandoc]) := by
  unfold convertAttempt
  rw [if_pos hp, hpr, runPandoc_exited_ok]
  cases w <;> simp

lemma convertAttempt_pandoc_fail_fallback (env : EngineEnv) (i t n o : String)
    (hp : canUsePandoc i t = true) (hl : canUseLibreOffice i t = true)
    (e : String) (fs : List String)
    (hrp : runPandoc env.pandocRun o [] = (Except.error e, fs)) :
    convertAttempt env i t n o =
      ((runLibreOffice env.libreRun n t fs).1, (runLibreOffice env.libreRun n t fs).2,
        [Ev.spawnPandoc, Ev.spawnLibre]) := by
  unfold convertAttempt
  rw [if_pos hp, hrp]
  simp only [hl, if_true]

lemma convertAttempt_pandoc_fail_no_fallback (env : EngineEnv) (i t n o : String)
    (hp : canUsePandoc i t = true) (hl : canUseLibreOffice i t = false)
    (e : String) (fs : List String)
    (hrp : runPandoc env.pandocRun o [] = (Except.error e, fs)) :
    convertAttempt env i t n o = (Except.error e, fs, [Ev.spawnPandoc]) := by
  unfold convertAttempt
  rw [if_pos hp, hrp]
  simp [hl]

lemma convertAttempt_libre_only (env : EngineEnv) (i t n o : String)
    (hp : canUsePandoc i t = false) (hl : canUseLibreOffice i t = true) :
    convertAttempt env i t n o =
      ((runLibreOffice env.libreRun n t []).1, (runLibreOffice env.libreRun n t []).2,
        [Ev.spawnLibre]) := by
  unfold convertAttempt
  rw [if_neg (by simp [hp]), if_pos hl]

lemma convertAttempt_unsupported (env : EngineEnv) (i t n o : String)
    (hp : canUsePandoc i t = false) (hl : canUseLibreOffice i t = false) :
    convertAttempt env i t n o =
      (Except.error ("Conversion from " ++ i ++ " to " ++ t ++ " is not supported"),
        [], []) := by
  unfold convertAttempt
  rw [if_neg (by simp [hp]), if_neg (by simp [hl])]

/-- Every spawn trace produced by the engine-selection block is one of four
concrete lists; in particular it never contains an unlink or send event. -/
lemma convertAttempt_events (env : EngineEnv) (i t n o : String) :
    (convertAttempt env i t n o).2.2 ∈
      ([[], [Ev.spawnPandoc], [Ev.spawnPandoc, Ev.spawnLibre], [Ev.spawnLibre]] :
        List (List Ev)) := by
  unfold convertAttempt
  by_cases hp : canUsePandoc i t
  · rw [if_pos hp]
    rcases hrp : runPandoc env.pandocRun o [] with ⟨r, fs⟩
    cases r with
    | ok cf => simp
    | error e =>
      by_cases hl : canUseLibreOffice i t
      · simp only [hl, if_true]
        rcases hrl : runLibreOffice env.libreRun n t fs with ⟨r2, fs2⟩
        simp [hrl]
      · simp [hl]
  · rw [if_neg hp]
    by_cases hl : canUseLibreOffice i t
    · rw [if_pos hl]
      rcases hrl : runLibreOffice env.libreRun n t [] with ⟨r2, fs2⟩
      simp
    · rw [if_neg hl]
      simp

/-! ### Reduction lemmas for the convert handler -/

lemma convertHandler_some_eq (f : UploadedFile) (t : String) (env : EngineEnv) :
    convertHandler ⟨some f, some t⟩ env =
      if t = "" then
        ⟨⟨400, RespBody.errMsg "Target format not specified"⟩, [],
          [Ev.unlinkInput, Ev.send]⟩
      else
        match convertAttempt env (inputExtOfName f.originalname) t (storedName f)
            (outputFileNameOf (storedName f) t) with
        | (Except.ok _, fs, tr) =>
          ⟨⟨200, RespBody.okFile (outputFileNameOf (storedName f) t)
              ("/api/download/" ++ outputFileNameOf (storedName f) t)⟩, fs,
            tr ++ [Ev.unlinkInput, Ev.send]⟩
        | (Except.error e, fs, tr) =>
          ⟨⟨500, RespBody.errMsg e⟩, fs, tr ++ [Ev.unlinkInput, Ev.send]⟩ := rfl

lemma convertHandler_ok_eq (f : UploadedFile) (t : String) (env : EngineEnv)
    (cf : String) (fs : List String) (tr : List Ev) (ht : t ≠ "")
    (hA : convertAttempt env (inputExtOfName f.originalname) t (storedName f)
        (outputFileNameOf (storedName f) t) = (Except.ok cf, fs, tr)) :
    convertHandler ⟨some f, some t⟩ env =
      ⟨⟨200, RespBody.okFile (outputFileNameOf (storedName f) t)
          ("/api/download/" ++ outputFileNameOf (storedName f) t)⟩, fs,
        tr ++ [Ev.unlinkInput, Ev.send]⟩ := by
  rw [convertHandler_some_eq, if_neg ht, hA]

lemma convertHandler_error_eq (f : UploadedFile) (t : String) (env : EngineEnv)
    (e : String) (fs : List String) (tr : List Ev) (ht : t ≠ "")
    (hA : convertAttempt env (inputExtOfName f.originalname) t (storedName f)
        (outputFileNameOf (storedName f) t) = (Except.error e, fs, tr)) :
    convertHandler ⟨some f, some t⟩ env =
      ⟨⟨500, RespBody.errMsg e⟩, fs, tr ++ [Ev.unlinkInput, Ev.send]⟩ := by
  rw [convertHandler_some_eq, if_neg ht, hA]

lemma convertHandler_unsupported_eq (f : UploadedFile) (t : String) (env : EngineEnv)
    (ht : t ≠ "") (hp : canUsePandoc (inputExtOfName f.originalname) t = false)
    (hl : canUseLibreOffice (inputExtOfName f.originalname) t = false) :
    convertHandler ⟨some f, some t⟩ env =
      ⟨⟨500, RespBody.errMsg ("Conversion from " ++ inputExtOfName f.originalname ++
          " to " ++ t ++ " is not supported")⟩, [], [Ev.unlinkInput, Ev.send]⟩ :=
  convertHandler_error_eq f t env _ [] [] ht
    (convertAttempt_unsupported env _ t _ _ hp hl)

lemma canUsePandoc_of_lookup_none (i t : String) (h : lookupFmt t = none) :
    canUsePandoc i t = false := by
  unfold canUsePandoc
  rw [h]
  simp

lemma canUseLibreOffice_of_lookup_none (i t : String) (h : lookupFmt t = none) :
    canUseLibreOffice i t = false := by
  unfold canUseLibreOffice
  rw [h]
  simp

/-! ### Claim theorems -/

/-- C7: the claim says every output artifact is deleted after download or
after a 24-hour retention horizon, whichever comes first.  The code only ever
deletes an output file 5 seconds after a successful download; an output file
that is never downloaded is never deleted — there is no 24-hour sweeper. -/
theorem c7_no_retention_horizon :
    (∀ e : Bool, outputDeletionTimes none e = []) ∧
    (∀ td : Nat, outputDeletionTimes (some td) false = [td + 5000]) :=
  ⟨fun _ => rfl, fun _ => rfl⟩

/-- C8: the reported aggregate OCR confidence equals the word-count-weighted
mean of the per-page confidences, the reported word count is the sum of the
per-page word counts, and a zero-word page contributes nothing to either
while still appearing in the per-page results. -/
theorem c8_ocr_confidence_weighted_mean (pages : List OcrPage) (p0 : OcrPage)
    (h0 : p0.words = 0) :
    ocrWordCount pages = (pages.map (fun p => p.words)).sum ∧
    (ocrWordCount pages ≠ 0 →
      ocrConfidence pages =
        (pages.map (fun p => p.conf * (p.words : ℚ))).sum / (ocrWordCount pages : ℚ)) ∧
    ocrWordCount (pages ++ [p0]) = ocrWordCount pages ∧
    ocrConfidence (pages ++ [p0]) = ocrConfidence pages ∧
    p0 ∈ ocrPerPage (pages ++ [p0]) := by
  have hwc : ocrWordCount (pages ++ [p0]) = ocrWordCount pages := by
    simp [ocrWordCount, h0]
  refine ⟨rfl, fun h => by simp [ocrConfidence, h], hwc, ?_, by simp [ocrPerPage]⟩
  unfold ocrConfidence
  rw [hwc]
  by_cases h : ocrWordCount pages = 0
  · rw [if_pos h, if_pos h]
  · rw [if_neg h, if_neg h]
    congr 1
    simp [h0]

theorem c8_ocr_confidence_weighted_mean_witness :
    (OcrPage.mk 0 0).words = 0 ∧
    (ocrWordCount ([OcrPage.mk 10 (9/10)] ++ [OcrPage.mk 0 0]) =
        ocrWordCount [OcrPage.mk 10 (9/10)] ∧
      ocrConfidence ([OcrPage.mk 10 (9/10)] ++ [OcrPage.mk 0 0]) =
        ocrConfidence [OcrPage.mk 10 (9/10)]) ∧
    ocrConfidence [OcrPage.mk 10 (9/10), OcrPage.mk 0 0] = 9/10 ∧
    ocrWordCount [OcrPage.mk 10 (9/10), OcrPage.mk 0 0] = 10 :=
  ⟨rfl,
   ⟨(c8_ocr_confidence_weighted_mean [OcrPage.mk 10 (9/10)] (OcrPage.mk 0 0) rfl).2.2.1,
    (c8_ocr_confidence_weighted_mean [OcrPage.mk 10 (9/10)] (OcrPage.mk 0 0) rfl).2.2.2.1⟩,
   by norm_num [ocrConfidence, ocrWordCount], by norm_num [ocrWordCount]⟩

/-- C2: for every request that reaches the convert handler with an uploaded
file, the uploaded input file is unlinked exactly once, and that unlink
happens before the HTTP response is sent, on every exit path. -/
theorem c2_input_deleted_exactly_once (f : UploadedFile) (oft : Option String)
    (env : EngineEnv) :
    (convertHandler ⟨some f, oft⟩ env).events.count Ev.unlinkInput = 1 ∧
    (convertHandler ⟨some f, oft⟩ env).events.getLast? = some Ev.send ∧
    ((convertHandler ⟨some f, oft⟩ env).events.dropLast).count Ev.unlinkInput = 1 := by
  rcases oft with _ | t
  · exact ⟨rfl, rfl, rfl⟩
  · by_cases ht : t = ""
    · subst ht
      exact ⟨rfl, rfl, rfl⟩
    · rcases hA : convertAttempt env (inputExtOfName f.originalname) t (storedName f)
          (outputFileNameOf (storedName f) t) with ⟨r, fs, tr⟩
      have htr := convertAttempt_events env (inputExtOfName f.originalname) t
        (storedName f) (outputFileNameOf (storedName f) t)
      rw [hA] at htr
      simp only [List.mem_cons, List.not_mem_nil, or_false] at htr
      cases r with
      | ok cf =>
        rw [convertHandler_ok_eq f t env cf fs tr ht hA]
        rcases htr with h | h | h | h <;> subst h <;> exact ⟨rfl, rfl, rfl⟩
      | error e =>
        rw [convertHandler_error_eq f t env e fs tr ht hA]
        rcases htr with h | h | h | h <;> subst h <;> exact ⟨rfl, rfl, rfl⟩

/-- C3 (amended): a request with no uploaded file, and a request with a
missing target format, are rejected with status 400 before any subprocess is
spawned and before any output file is created; a request whose format pair no
engine supports is likewise rejected before any subprocess and any output
file, but with status 500 — not with a 4xx status as the claim states. -/
theorem c3_validation_before_work (req : ConvertReq) (env : EngineEnv) :
    (req.file = none →
      convertHandler req env =
        ⟨⟨400, RespBody.errMsg "No file uploaded"⟩, [], [Ev.send]⟩) ∧
    (∀ f, req.file = some f → req.toFormat.getD "" = "" →
      convertHandler req env =
        ⟨⟨400, RespBody.errMsg "Target format not specified"⟩, [],
          [Ev.unlinkInput, Ev.send]⟩) ∧
    (∀ f t, req.file = some f → req.toFormat = some t → t ≠ "" →
      canUsePandoc (inputExtOfName f.originalname) t = false →
      canUseLibreOffice (inputExtOfName f.originalname) t = false →
      (convertHandler req env).resp.status = 500 ∧
      (convertHandler req env).outputFiles = [] ∧
      (convertHandler req env).events.filter isSpawn = []) := by
  rcases req with ⟨rfile, oft⟩
  refine ⟨?_, ?_, ?_⟩
  · intro h
    cases rfile with
    | none => cases oft <;> rfl
    | some f0 => exact Option.noConfusion h
  · intro f h hft
    cases rfile with
    | none => exact Option.noConfusion h
    | some f0 =>
      cases oft with
      | none => rfl
      | some t =>
        have ht : t = "" := by simpa using hft
        subst ht
        rfl
  · intro f t h h2 ht hp hl
    cases rfile with
    | none => exact Option.noConfusion h
    | some f0 =>
      injection h with h
      subst h
      cases oft with
      | none => exact Option.noConfusion h2
      | some t2 =>
        injection h2 with h2
        subst h2
        rw [convertHandler_unsupported_eq _ _ env ht hp hl]
        exact ⟨rfl, rfl, rfl⟩

/-- C3 counterexample: converting an `.exe` upload (a pair no engine
supports) is rejected before any subprocess, but with status 500, which is
not a 4xx validation status as the claim requires. -/
theorem c3_counterexample :
    (convertHandler ⟨some ⟨"x.exe", "u"⟩, some "pdf"⟩
        ⟨ProcOutcome.exited 0 "" true, ProcOutcome.exited 0 "" true⟩).resp.status = 500 ∧
    ¬ ((convertHandler ⟨some ⟨"x.exe", "u"⟩, some "pdf"⟩
        ⟨ProcOutcome.exited 0 "" true, ProcOutcome.exited 0 "" true⟩).resp.status < 500) ∧
    (convertHandler ⟨some ⟨"x.exe", "u"⟩, some "pdf"⟩
        ⟨ProcOutcome.exited 0 "" true, ProcOutcome.exited 0 "" true⟩).events.filter
      isSpawn = [] := by
  decide

theorem c3_validation_before_work_witness :
    (convertHandler ⟨some ⟨"report.xlsx", "u2"⟩, some "md"⟩
        ⟨ProcOutcome.exited 0 "" true, ProcOutcome.exited 0 "" true⟩).resp.status = 500 ∧
    (convertHandler ⟨some ⟨"report.xlsx", "u2"⟩, some "md"⟩
        ⟨ProcOutcome.exited 0 "" true, ProcOutcome.exited 0 "" true⟩).outputFiles = [] ∧
    (convertHandler ⟨some ⟨"report.xlsx", "u2"⟩, some "md"⟩
        ⟨ProcOutcome.exited 0 "" true, ProcOutcome.exited 0 "" true⟩).events.filter
      isSpawn = [] :=
  (c3_validation_before_work ⟨some ⟨"report.xlsx", "u2"⟩, some "md"⟩
      ⟨ProcOutcome.exited 0 "" true, ProcOutcome.exited 0 "" true⟩).2.2
    ⟨"report.xlsx", "u2"⟩ "md" rfl rfl (by decide) (by decide) (by decide)

/-- C10: the caller-supplied `toFormat` string is used verbatim as the
registry key, so every supported format given in its upper-case spelling is
rejected as an unsupported conversion (status 500, no engine spawned), while
the input file's extension is lower-cased before the registry lookup and is
therefore accepted in any letter case. -/
theorem c10_toFormat_case_sensitive_input_ext_not (t : String) (ht : t ∈ fmtKeys) :
    lookupFmt (jsToUpper t) = none ∧
    (∀ (env : EngineEnv) (uuid origname : String),
      (convertHandler ⟨some ⟨origname, uuid⟩, some (jsToUpper t)⟩ env).resp.status = 500 ∧
      (convertHandler ⟨some ⟨origname, uuid⟩, some (jsToUpper t)⟩ env).events.filter
        isSpawn = [] ∧
      (convertHandler ⟨some ⟨origname, uuid⟩, some (jsToUpper t)⟩ env).outputFiles = []) ∧
    inputExtOfName ("f." ++ jsToUpper t) = t := by
  fin_cases ht <;>
    refine ⟨by decide, fun env uuid origname => ?_, by decide⟩ <;>
    rw [convertHandler_unsupported_eq _ _ _ (by decide)
        (canUsePandoc_of_lookup_none _ _ (by decide))
        (canUseLibreOffice_of_lookup_none _ _ (by decide))] <;>
    exact ⟨rfl, rfl, rfl⟩

theorem c10_toFormat_case_sensitive_input_ext_not_witness :
    lookupFmt (jsToUpper "pdf") = none ∧
    (convertHandler ⟨some ⟨"f.txt", "u"⟩, some (jsToUpper "pdf")⟩
        ⟨ProcOutcome.exited 0 "" true, ProcOutcome.exited 0 "" true⟩).resp.status = 500 ∧
    inputExtOfName ("f." ++ jsToUpper "pdf") = "pdf" :=
  ⟨(c10_toFormat_case_sensitive_input_ext_not "pdf" (by decide)).1,
   ((c10_toFormat_case_sensitive_input_ext_not "pdf" (by decide)).2.1
      ⟨ProcOutcome.exited 0 "" true, ProcOutcome.exited 0 "" true⟩ "u" "f.txt").1,
   (c10_toFormat_case_sensitive_input_ext_not "pdf" (by decide)).2.2⟩

/-! ### C1, C5, C6 -/

lemma runLibreOffice_exited_fail (c : Nat) (st : String) (w : Bool) (n t : String)
    (fs : List String) (hc : c ≠ 0) :
    runLibreOffice (ProcOutcome.exited c st w) n t fs =
      (Except.error ("LibreOffice conversion failed: " ++ st),
        if w then fs ++ [libreOutputName n t] else fs) := by
  unfold runLibreOffice
  simp [hc]

lemma c1_aux (f : UploadedFile) (t : String) (env : EngineEnv) (ht : t ≠ "")
    (hp : canUsePandoc (inputExtOfName f.originalname) t = true)
    (hl : canUseLibreOffice (inputExtOfName f.originalname) t = true)
    (e : String) (fs0 : List String)
    (hrp : runPandoc env.pandocRun (outputFileNameOf (storedName f) t) [] =
      (Except.error e, fs0)) :
    (convertHandler ⟨some f, some t⟩ env).events.filter isSpawn =
      [Ev.spawnPandoc, Ev.spawnLibre] ∧
    (∀ st2, env.libreRun = ProcOutcome.exited 0 st2 true →
      (convertHandler ⟨some f, some t⟩ env).resp.status = 200 ∧
      (respToJson (convertHandler ⟨some f, some t⟩ env).resp.body).lookup
        "engineUsed" = none) := by
  have hA := convertAttempt_pandoc_fail_fallback env (inputExtOfName f.originalname) t
    (storedName f) (outputFileNameOf (storedName f) t) hp hl e fs0 hrp
  rcases hrl : runLibreOffice env.libreRun (storedName f) t fs0 with ⟨r2, fs2⟩
  rw [hrl] at hA
  cases r2 with
  | ok cf =>
    rw [convertHandler_ok_eq f t env cf fs2 _ ht hA]
    exact ⟨rfl, fun st2 h2 => ⟨rfl, rfl⟩⟩
  | error e2 =>
    rw [convertHandler_error_eq f t env e2 fs2 _ ht hA]
    refine ⟨rfl, fun st2 h2 => ?_⟩
    rw [h2, runLibreOffice_exited_ok_wrote] at hrl
    simp at hrl

/-- C1 (amended): for every format pair both engines can handle, the handler
invokes Pandoc first and invokes LibreOffice only if the Pandoc attempt
fails; if Pandoc fails and LibreOffice succeeds the request still succeeds
with status 200 — but the returned JSON carries no `engineUsed` tag at all
(the success body is exactly `{success, fileName, downloadUrl}`). -/
theorem c1_pandoc_first_libreoffice_fallback (f : UploadedFile) (t : String)
    (env : EngineEnv) (ht : t ≠ "")
    (hp : canUsePandoc (inputExtOfName f.originalname) t = true)
    (hl : canUseLibreOffice (inputExtOfName f.originalname) t = true) :
    ((convertHandler ⟨some f, some t⟩ env).events.filter isSpawn).head? =
      some Ev.spawnPandoc ∧
    (∀ st w, env.pandocRun = ProcOutcome.exited 0 st w →
      (convertHandler ⟨some f, some t⟩ env).events.filter isSpawn = [Ev.spawnPandoc]) ∧
    (pandocFailed env →
      (convertHandler ⟨some f, some t⟩ env).events.filter isSpawn =
        [Ev.spawnPandoc, Ev.spawnLibre]) ∧
    (pandocFailed env → ∀ st2, env.libreRun = ProcOutcome.exited 0 st2 true →
      (convertHandler ⟨some f, some t⟩ env).resp.status = 200 ∧
      (respToJson (convertHandler ⟨some f, some t⟩ env).resp.body).lookup
        "engineUsed" = none) := by
  rcases hpr : env.pandocRun with m | ⟨c, st, w⟩
  · have hrp := runPandoc_spawnFail m (outputFileNameOf (storedName f) t) []
    rw [← hpr] at hrp
    obtain ⟨h1, h4⟩ := c1_aux f t env ht hp hl m [] hrp
    refine ⟨by rw [h1]; rfl, ?_, fun _ => h1, fun _ => h4⟩
    intro st2 w2 h2
    exact ProcOutcome.noConfusion h2
  · by_cases hc : c = 0
    · subst hc
      have hA := convertAttempt_pandoc_ok env (inputExtOfName f.originalname) t
        (storedName f) (outputFileNameOf (storedName f) t) hp st w hpr
      have hH := convertHandler_ok_eq f t env _ _ _ ht hA
      have hnf : ¬ pandocFailed env := by
        intro hpf
        rcases hpf with ⟨m, hm⟩ | ⟨c2, st2, w2, hm, hc2⟩
        · rw [hpr] at hm
          exact ProcOutcome.noConfusion hm
        · rw [hpr] at hm
          injection hm with e1 e2 e3
          exact hc2 e1.symm
      exact ⟨by rw [hH]; rfl, fun st2 w2 h2 => by rw [hH]; rfl,
        fun hpf => absurd hpf hnf, fun hpf => absurd hpf hnf⟩
    · have hrp := runPandoc_exited_fail c st w (outputFileNameOf (storedName f) t) [] hc
      rw [← hpr] at hrp
      obtain ⟨h1, h4⟩ := c1_aux f t env ht hp hl _ _ hrp
      refine ⟨by rw [h1]; rfl, ?_, fun _ => h1, fun _ => h4⟩
      intro st2 w2 h2
      injection h2 with e1 e2 e3
      exact absurd e1 hc

/-- C1 counterexample: with a docx-to-pdf request (both engines capable),
Pandoc forced to fail and LibreOffice succeeding, the request succeeds via
the fallback engine, but the JSON response contains no `engineUsed` key —
the result is not tagged `engineUsed: fallback` as the claim states. -/
theorem c1_counterexample :
    (convertHandler ⟨some ⟨"notes.docx", "u1"⟩, some "pdf"⟩
        ⟨ProcOutcome.exited 1 "boom" false, ProcOutcome.exited 0 "" true⟩).resp.status
      = 200 ∧
    (convertHandler ⟨some ⟨"notes.docx", "u1"⟩, some "pdf"⟩
        ⟨ProcOutcome.exited 1 "boom" false, ProcOutcome.exited 0 "" true⟩).events.filter
      isSpawn = [Ev.spawnPandoc, Ev.spawnLibre] ∧
    (respToJson (convertHandler ⟨some ⟨"notes.docx", "u1"⟩, some "pdf"⟩
        ⟨ProcOutcome.exited 1 "boom" false,
          ProcOutcome.exited 0 "" true⟩).resp.body).lookup "engineUsed" = none := by
  decide

theorem c1_pandoc_first_libreoffice_fallback_witness :
    ("pdf" ≠ "" ∧ canUsePandoc (inputExtOfName "a.docx") "pdf" = true ∧
      canUseLibreOffice (inputExtOfName "a.docx") "pdf" = true) ∧
    (convertHandler ⟨some ⟨"a.docx", "w"⟩, some "pdf"⟩
        ⟨ProcOutcome.spawnFail "pandoc missing",
          ProcOutcome.exited 0 "" true⟩).events.filter isSpawn =
      [Ev.spawnPandoc, Ev.spawnLibre] ∧
    (convertHandler ⟨some ⟨"a.docx", "w"⟩, some "pdf"⟩
        ⟨ProcOutcome.spawnFail "pandoc missing",
          ProcOutcome.exited 0 "" true⟩).resp.status = 200 :=
  ⟨⟨by decide, by decide, by decide⟩,
   (c1_pandoc_first_libreoffice_fallback ⟨"a.docx", "w"⟩ "pdf"
      ⟨ProcOutcome.spawnFail "pandoc missing", ProcOutcome.exited 0 "" true⟩
      (by decide) (by decide) (by decide)).2.2.1 (Or.inl ⟨"pandoc missing", rfl⟩),
   ((c1_pandoc_first_libreoffice_fallback ⟨"a.docx", "w"⟩ "pdf"
      ⟨ProcOutcome.spawnFail "pandoc missing", ProcOutcome.exited 0 "" true⟩
      (by decide) (by decide) (by decide)).2.2.2 (Or.inl ⟨"pandoc missing", rfl⟩)
      "" rfl).1⟩

/-- C5 (amended): when an engine invocation fails after writing a partial
output file, the error is returned with the partial file still present in
the output directory — neither adapter removes partial outputs. -/
theorem c5_partial_output_not_removed (f : UploadedFile) (t : String)
    (env : EngineEnv) (ht : t ≠ "") :
    (∀ c st, env.pandocRun = ProcOutcome.exited c st true → c ≠ 0 →
      canUsePandoc (inputExtOfName f.originalname) t = true →
      canUseLibreOffice (inputExtOfName f.originalname) t = false →
      (convertHandler ⟨some f, some t⟩ env).resp.status = 500 ∧
      outputFileNameOf (storedName f) t ∈
        (convertHandler ⟨some f, some t⟩ env).outputFiles) ∧
    (∀ c st, env.libreRun = ProcOutcome.exited c st true → c ≠ 0 →
      canUsePandoc (inputExtOfName f.originalname) t = false →
      canUseLibreOffice (inputExtOfName f.originalname) t = true →
      (convertHandler ⟨some f, some t⟩ env).resp.status = 500 ∧
      libreOutputName (storedName f) t ∈
        (convertHandler ⟨some f, some t⟩ env).outputFiles) := by
  constructor
  · intro c st hpr hc hp hl
    have hrp := runPandoc_exited_fail c st true (outputFileNameOf (storedName f) t) [] hc
    rw [← hpr] at hrp
    have hA := convertAttempt_pandoc_fail_no_fallback env (inputExtOfName f.originalname)
      t (storedName f) (outputFileNameOf (storedName f) t) hp hl _ _ hrp
    rw [convertHandler_error_eq f t env _ _ _ ht hA]
    exact ⟨rfl, by simp⟩
  · intro c st hlr hc hp hl
    have hA := convertAttempt_libre_only env (inputExtOfName f.originalname) t
      (storedName f) (outputFileNameOf (storedName f) t) hp hl
    have hrl := runLibreOffice_exited_fail c st true (storedName f) t [] hc
    rw [← hlr] at hrl
    rw [hrl] at hA
    rw [convertHandler_error_eq f t env _ _ _ ht hA]
    exact ⟨rfl, by simp⟩

/-- C5 counterexample: a markdown-to-pdf request (Pandoc only) where Pandoc
exits non-zero after writing a partial `u-a.pdf`: the handler returns the
error with the partial file still in the output directory, so the claim that
partial output is removed before the error is returned is false here. -/
theorem c5_counterexample :
    (convertHandler ⟨some ⟨"a.md", "u"⟩, some "pdf"⟩
        ⟨ProcOutcome.exited 1 "err" true, ProcOutcome.exited 0 "" true⟩).resp.status
      = 500 ∧
    "u-a.pdf" ∈ (convertHandler ⟨some ⟨"a.md", "u"⟩, some "pdf"⟩
        ⟨ProcOutcome.exited 1 "err" true, ProcOutcome.exited 0 "" true⟩).outputFiles := by
  decide

theorem c5_partial_output_not_removed_witness :
    (convertHandler ⟨some ⟨"b.md", "v"⟩, some "docx"⟩
        ⟨ProcOutcome.exited 2 "crash" true, ProcOutcome.exited 0 "" true⟩).resp.status
      = 500 ∧
    outputFileNameOf (storedName ⟨"b.md", "v"⟩) "docx" ∈
      (convertHandler ⟨some ⟨"b.md", "v"⟩, some "docx"⟩
        ⟨ProcOutcome.exited 2 "crash" true, ProcOutcome.exited 0 "" true⟩).outputFiles :=
  (c5_partial_output_not_removed ⟨"b.md", "v"⟩ "docx"
      ⟨ProcOutcome.exited 2 "crash" true, ProcOutcome.exited 0 "" true⟩
      (by decide)).1 2 "crash" rfl (by decide) (by decide) (by decide)

/-- C6 (amended): a conversion that fails after validation returns status
500, but the response's error message embeds the engine's raw stderr
verbatim (as `error.message` is sent to the client), instead of a generic
summarized message. -/
theorem c6_engine_stderr_leaked (f : UploadedFile) (t : String)
    (env : EngineEnv) (ht : t ≠ "") :
    (∀ c st w, env.pandocRun = ProcOutcome.exited c st w → c ≠ 0 →
      canUsePandoc (inputExtOfName f.originalname) t = true →
      canUseLibreOffice (inputExtOfName f.originalname) t = false →
      (convertHandler ⟨some f, some t⟩ env).resp.status = 500 ∧
      msgOf (convertHandler ⟨some f, some t⟩ env).resp.body =
        "Pandoc conversion failed: " ++ st) ∧
    (∀ c st w, env.libreRun = ProcOutcome.exited c st w → c ≠ 0 →
      canUsePandoc (inputExtOfName f.originalname) t = false →
      canUseLibreOffice (inputExtOfName f.originalname) t = true →
      (convertHandler ⟨some f, some t⟩ env).resp.status = 500 ∧
      msgOf (convertHandler ⟨some f, some t⟩ env).resp.body =
        "LibreOffice conversion failed: " ++ st) := by
  constructor
  · intro c st w hpr hc hp hl
    have hrp := runPandoc_exited_fail c st w (outputFileNameOf (storedName f) t) [] hc
    rw [← hpr] at hrp
    have hA := convertAttempt_pandoc_fail_no_fallback env (inputExtOfName f.originalname)
      t (storedName f) (outputFileNameOf (storedName f) t) hp hl _ _ hrp
    rw [convertHandler_error_eq f t env _ _ _ ht hA]
    exact ⟨rfl, rfl⟩
  · intro c st w hlr hc hp hl
    have hA := convertAttempt_libre_only env (inputExtOfName f.originalname) t
      (storedName f) (outputFileNameOf (storedName f) t) hp hl
    have hrl := runLibreOffice_exited_fail c st w (storedName f) t [] hc
    rw [← hlr] at hrl
    rw [hrl] at hA
    rw [convertHandler_error_eq f t env _ _ _ ht hA]
    exact ⟨rfl, rfl⟩

/-- C6 counterexample: a failing Pandoc run whose stderr is
`rawEngineStderr!` produces a 500 response whose error message contains that
stderr verbatim, contradicting the claim that raw stderr is never included
in the response body. -/
theorem c6_counterexample :
    (convertHandler ⟨some ⟨"a.md", "u"⟩, some "docx"⟩
        ⟨ProcOutcome.exited 1 "rawEngineStderr!" false,
          ProcOutcome.exited 0 "" true⟩).resp.status = 500 ∧
    (∃ pre : String, msgOf (convertHandler ⟨some ⟨"a.md", "u"⟩, some "docx"⟩
        ⟨ProcOutcome.exited 1 "rawEngineStderr!" false,
          ProcOutcome.exited 0 "" true⟩).resp.body = pre ++ "rawEngineStderr!") :=
  ⟨by decide, ⟨"Pandoc conversion failed: ", by decide⟩⟩

theorem c6_engine_stderr_leaked_witness :
    (convertHandler ⟨some ⟨"c.md", "w2"⟩, some "html"⟩
        ⟨ProcOutcome.exited 3 "secret diagnostics" true,
          ProcOutcome.exited 0 "" true⟩).resp.status = 500 ∧
    msgOf (convertHandler ⟨some ⟨"c.md", "w2"⟩, some "html"⟩
        ⟨ProcOutcome.exited 3 "secret diagnostics" true,
          ProcOutcome.exited 0 "" true⟩).resp.body =
      "Pandoc conversion failed: " ++ "secret diagnostics" :=
  (c6_engine_stderr_leaked ⟨"c.md", "w2"⟩ "html"
      ⟨ProcOutcome.exited 3 "secret diagnostics" true, ProcOutcome.exited 0 "" true⟩
      (by decide)).1 3 "secret diagnostics" true rfl (by decide) (by decide) (by decide)

/-! ### C4 -/

lemma runLibreOffice_exited_ok_notwrote (st : String) (n t : String) (fs : List String) :
    runLibreOffice (ProcOutcome.exited 0 st false) n t fs =
      if libreOutputName n t ∈ fs then (Except.ok (libreOutputName n t), fs)
      else (Except.error "Converted file not found", fs) := by
  unfold runLibreOffice
  simp

lemma c4_libre_result (f : UploadedFile) (t : String) (env : EngineEnv) (hne : t ≠ "")
    (fs0 : List String) (tr : List Ev)
    (hA : convertAttempt env (inputExtOfName f.originalname) t (storedName f)
        (outputFileNameOf (storedName f) t) =
      ((runLibreOffice env.libreRun (storedName f) t fs0).1,
       (runLibreOffice env.libreRun (storedName f) t fs0).2, tr))
    (h200 : (convertHandler ⟨some f, some t⟩ env).resp.status = 200) :
    (convertHandler ⟨some f, some t⟩ env).resp.body =
      RespBody.okFile (outputFileNameOf (storedName f) t)
        ("/api/download/" ++ outputFileNameOf (storedName f) t) ∧
    outputFileNameOf (storedName f) t ∈
      (convertHandler ⟨some f, some t⟩ env).outputFiles := by
  rcases hlo : env.libreRun with m2 | ⟨c2, st2, w2⟩
  · rw [hlo] at hA
    rw [convertHandler_error_eq f t env m2 fs0 tr hne hA] at h200
    exact absurd h200 (by simp)
  · by_cases hc2 : c2 = 0
    · subst hc2
      cases w2 with
      | true =>
        rw [hlo, runLibreOffice_exited_ok_wrote] at hA
        rw [convertHandler_ok_eq f t env _ _ _ hne hA]
        exact ⟨rfl, List.mem_append_right _ (List.mem_cons_self _ _)⟩
      | false =>
        rw [hlo, runLibreOffice_exited_ok_notwrote] at hA
        by_cases hm : libreOutputName (storedName f) t ∈ fs0
        · rw [if_pos hm] at hA
          rw [convertHandler_ok_eq f t env _ _ _ hne hA]
          exact ⟨rfl, hm⟩
        · rw [if_neg hm] at hA
          rw [convertHandler_error_eq f t env _ _ _ hne hA] at h200
          exact absurd h200 (by simp)
    · rw [hlo, runLibreOffice_exited_fail c2 st2 w2 (storedName f) t fs0 hc2] at hA
      rw [convertHandler_error_eq f t env _ _ _ hne hA] at h200
      exact absurd h200 (by simp)

lemma strEq_of_data {a b : String} (h : a.data = b.data) : a = b := String.ext h

/-- C4: for every request the handler answers with status 200, the response
body names `outputFileName` (whose extension is exactly the requested
`toFormat`) with the matching download URL, that file is present in the
output directory whichever engine produced it, and the LibreOffice adapter's
artifact name — derived from the input file's basename — coincides with the
handler's `outputFileName`, so the served artifact is the file the
`downloadUrl` points to.  The Pandoc engine is assumed to write its output
file when it exits with code 0 (the code does not re-check existence on that
path). -/
theorem c4_success_artifact_matches (f : UploadedFile) (t : String) (env : EngineEnv)
    (hs : '/' ∉ (storedName f).data)
    (hconf : ∀ st w, env.pandocRun = ProcOutcome.exited 0 st w → w = true)
    (h200 : (convertHandler ⟨some f, some t⟩ env).resp.status = 200) :
    (convertHandler ⟨some f, some t⟩ env).resp.body =
      RespBody.okFile (outputFileNameOf (storedName f) t)
        ("/api/download/" ++ outputFileNameOf (storedName f) t) ∧
    outputFileNameOf (storedName f) t ∈
      (convertHandler ⟨some f, some t⟩ env).outputFiles ∧
    extnameStr (outputFileNameOf (storedName f) t) = "." ++ t ∧
    libreOutputName (storedName f) t = outputFileNameOf (storedName f) t := by
  have hne : t ≠ "" := by
    intro h0
    subst h0
    rw [convertHandler_some_eq] at h200
    simp at h200
  have hbm : (convertHandler ⟨some f, some t⟩ env).resp.body =
      RespBody.okFile (outputFileNameOf (storedName f) t)
        ("/api/download/" ++ outputFileNameOf (storedName f) t) ∧
      outputFileNameOf (storedName f) t ∈
        (convertHandler ⟨some f, some t⟩ env).outputFiles := by
    by_cases hp : canUsePandoc (inputExtOfName f.originalname) t = true
    · rcases hpr : env.pandocRun with m | ⟨c, st, w⟩
      · by_cases hl : canUseLibreOffice (inputExtOfName f.originalname) t = true
        · have hrp := runPandoc_spawnFail m (outputFileNameOf (storedName f) t) []
          rw [← hpr] at hrp
          have hA := convertAttempt_pandoc_fail_fallback env
            (inputExtOfName f.originalname) t (storedName f)
            (outputFileNameOf (storedName f) t) hp hl m [] hrp
          exact c4_libre_result f t env hne [] _ hA h200
        · have hrp := runPandoc_spawnFail m (outputFileNameOf (storedName f) t) []
          rw [← hpr] at hrp
          have hA := convertAttempt_pandoc_fail_no_fallback env
            (inputExtOfName f.originalname) t (storedName f)
            (outputFileNameOf (storedName f) t) hp (by simpa using hl) m [] hrp
          rw [convertHandler_error_eq f t env _ _ _ hne hA] at h200
          exact absurd h200 (by simp)
      · by_cases hc : c = 0
        · subst hc
          have hw := hconf st w hpr
          subst hw
          have hA := convertAttempt_pandoc_ok env (inputExtOfName f.originalname) t
            (storedName f) (outputFileNameOf (storedName f) t) hp st true hpr
          rw [convertHandler_ok_eq f t env _ _ _ hne hA]
          exact ⟨rfl, by simp⟩
        · by_cases hl : canUseLibreOffice (inputExtOfName f.originalname) t = true
          · have hrp := runPandoc_exited_fail c st w
              (outputFileNameOf (storedName f) t) [] hc
            rw [← hpr] at hrp
            have hA := convertAttempt_pandoc_fail_fallback env
              (inputExtOfName f.originalname) t (storedName f)
              (outputFileNameOf (storedName f) t) hp hl _ _ hrp
            exact c4_libre_result f t env hne _ _ hA h200
          · have hrp := runPandoc_exited_fail c st w
              (outputFileNameOf (storedName f) t) [] hc
            rw [← hpr] at hrp
            have hA := convertAttempt_pandoc_fail_no_fallback env
              (inputExtOfName f.originalname) t (storedName f)
              (outputFileNameOf (storedName f) t) hp (by simpa using hl) _ _ hrp
            rw [convertHandler_error_eq f t env _ _ _ hne hA] at h200
            exact absurd h200 (by simp)
    · by_cases hl : canUseLibreOffice (inputExtOfName f.originalname) t = true
      · have hA := convertAttempt_libre_only env (inputExtOfName f.originalname) t
          (storedName f) (outputFileNameOf (storedName f) t) (by simpa using hp) hl
        exact c4_libre_result f t env hne [] _ hA h200
      · have hA := convertAttempt_unsupported env (inputExtOfName f.originalname) t
          (storedName f) (outputFileNameOf (storedName f) t)
          (by simpa using hp) (by simpa using hl)
        rw [convertHandler_error_eq f t env _ _ _ hne hA] at h200
        exact absurd h200 (by simp)
  have hsome : ∃ cnd, lookupFmt t = some cnd := by
    by_cases hp : canUsePandoc (inputExtOfName f.originalname) t = true
    · exact lookupFmt_isSome_of_canUsePandoc _ _ hp
    · by_cases hl : canUseLibreOffice (inputExtOfName f.originalname) t = true
      · exact lookupFmt_isSome_of_canUseLibreOffice _ _ hl
      · have hA := convertAttempt_unsupported env (inputExtOfName f.originalname) t
          (storedName f) (outputFileNameOf (storedName f) t)
          (by simpa using hp) (by simpa using hl)
        rw [convertHandler_error_eq f t env _ _ _ hne hA] at h200
        exact absurd h200 (by simp)
  obtain ⟨cnd, hcnd⟩ := hsome
  obtain ⟨htd, hts, htn⟩ := lookupFmt_shape t cnd hcnd
  have hdata : (outputFileNameOf (storedName f) t).data =
      basenameNoExtL (storedName f).data ++ '.' :: t.data := by
    unfold outputFileNameOf basenameNoExt
    rw [String.data_append, String.data_append, List.append_assoc]
    rfl
  have hb1 : basenameNoExtL (storedName f).data ≠ [] :=
    basenameNoExtL_ne_nil _ hs (storedName_ne_nil f)
  have hb2 : '/' ∉ basenameNoExtL (storedName f).data := basenameNoExtL_no_slash _ hs
  have hsl : '/' ∉ basenameNoExtL (storedName f).data ++ '.' :: t.data := by
    intro hm
    rcases List.mem_append.mp hm with h1 | h1
    · exact hb2 h1
    · rcases List.mem_cons.mp h1 with h2 | h2
      · exact absurd h2 (by decide)
      · exact hts h2
  have hdataExt : extnameL (outputFileNameOf (storedName f) t).data = '.' :: t.data := by
    rw [hdata]
    exact extnameL_concat _ _ hb1 htd htn hsl
  have hext : extnameStr (outputFileNameOf (storedName f) t) = "." ++ t := by
    unfold extnameStr
    rw [hdataExt]
    apply strEq_of_data
    show ('.' :: t.data) = ("." ++ t).data
    rw [String.data_append]
    rfl
  exact ⟨hbm.1, hbm.2, hext, rfl⟩

theorem c4_success_artifact_matches_witness :
    ('/' ∉ (storedName ⟨"notes.docx", "u1"⟩).data ∧
      (convertHandler ⟨some ⟨"notes.docx", "u1"⟩, some "pdf"⟩
        ⟨ProcOutcome.exited 0 "" true, ProcOutcome.exited 0 "" true⟩).resp.status = 200) ∧
    ((convertHandler ⟨some ⟨"notes.docx", "u1"⟩, some "pdf"⟩
        ⟨ProcOutcome.exited 0 "" true, ProcOutcome.exited 0 "" true⟩).resp.body =
      RespBody.okFile (outputFileNameOf (storedName ⟨"notes.docx", "u1"⟩) "pdf")
        ("/api/download/" ++ outputFileNameOf (storedName ⟨"notes.docx", "u1"⟩) "pdf") ∧
    outputFileNameOf (storedName ⟨"notes.docx", "u1"⟩) "pdf" ∈
      (convertHandler ⟨some ⟨"notes.docx", "u1"⟩, some "pdf"⟩
        ⟨ProcOutcome.exited 0 "" true, ProcOutcome.exited 0 "" true⟩).outputFiles ∧
    extnameStr (outputFileNameOf (storedName ⟨"notes.docx", "u1"⟩) "pdf") = "." ++ "pdf" ∧
    libreOutputName (storedName ⟨"notes.docx", "u1"⟩) "pdf" =
      outputFileNameOf (storedName ⟨"notes.docx", "u1"⟩) "pdf") :=
  ⟨⟨by decide, by decide⟩,
   c4_success_artifact_matches ⟨"notes.docx", "u1"⟩ "pdf"
     ⟨ProcOutcome.exited 0 "" true, ProcOutcome.exited 0 "" true⟩
     (by decide) (fun st w h => by cases h; rfl) (by decide)⟩

/-! ### C9 -/

lemma renderPathL_append (xs ys : List String) :
    renderPathL (xs ++ ys) = renderPathL xs ++ renderPathL ys := by
  induction xs with
  | nil => rfl
  | cons a xs ih =>
    show ('/' :: a.data ++ renderPathL (xs ++ ys)) =
      ('/' :: a.data ++ renderPathL xs) ++ renderPathL ys
    rw [ih]
    simp [List.append_assoc]

lemma renderPathL_length_lt (l : List String) (hl : l ≠ []) :
    (renderPathL l.dropLast).length < (renderPathL l).length := by
  conv_rhs => rw [← List.dropLast_append_getLast hl]
  rw [renderPathL_append]
  simp [renderPathL]

lemma isPrefixOf_to_IsPrefix {l1 l2 : List Char} (h : l1.isPrefixOf l2 = true) :
    l1 <+: l2 :=
  List.isPrefixOf_iff_prefix.mp h

/-- C9: whatever the `:filename` parameter is — directory-traversal
sequences included — if the download handler serves a path at all, that path
lies inside the converted-output directory (it is the directory itself or a
direct child of it), and deletion of the served file is scheduled exactly
when the download completed without error. -/
theorem c9_download_path_confined (outputDir : List String) (param : String)
    (files : List String) (downloadOk : Bool) (p : List String) (sched : Bool)
    (h : downloadHandler outputDir param files downloadOk = DlOutcome.served p sched) :
    outputDir <+: p ∧ p.length ≤ outputDir.length + 1 ∧ sched = downloadOk := by
  unfold downloadHandler at h
  split_ifs at h with h1 h2
  · injection h with hp1 hp2
    subst hp1
    have key : outputDir <+: joinResolve outputDir ⟨basenameL param.data⟩ ∧
        (joinResolve outputDir ⟨basenameL param.data⟩).length ≤ outputDir.length + 1 := by
      by_cases hn1 : (⟨basenameL param.data⟩ : String) = "" ∨
          (⟨basenameL param.data⟩ : String) = "."
      · unfold joinResolve
        rw [if_pos hn1]
        exact ⟨⟨[], List.append_nil _⟩, by omega⟩
      · by_cases hn2 : (⟨basenameL param.data⟩ : String) = ".."
        · unfold joinResolve at h1 ⊢
          rw [if_neg hn1, if_pos hn2] at h1 ⊢
          by_cases hd : outputDir = []
          · subst hd
            exact ⟨by simp, by simp⟩
          · exfalso
            have hpre : renderPathL outputDir <+: renderPathL outputDir.dropLast :=
              isPrefixOf_to_IsPrefix h1
            have hle := hpre.length_le
            have hlt := renderPathL_length_lt outputDir hd
            omega
        · unfold joinResolve
          rw [if_neg hn1, if_neg hn2]
          exact ⟨⟨[⟨basenameL param.data⟩], rfl⟩, by simp⟩
    exact ⟨key.1, key.2, hp2.symm⟩

theorem c9_download_path_confined_witness :
    (downloadHandler ["srv", "converted"] "doc.pdf" ["doc.pdf"] true =
      DlOutcome.served ["srv", "converted", "doc.pdf"] true) ∧
    (["srv", "converted"] <+: ["srv", "converted", "doc.pdf"] ∧
      (["srv", "converted", "doc.pdf"] : List String).length ≤
        (["srv", "converted"] : List String).length + 1 ∧
      (true : Bool) = true) :=
  ⟨by decide,
   c9_download_path_confined ["srv", "converted"] "doc.pdf" ["doc.pdf"] true
     ["srv", "converted", "doc.pdf"] true (by decide)⟩
